import Mathlib

/-!
Verification of the etcd-backed service-registration core of `common-rs`
(`src/etcd.rs`): the CRUD wrappers `put`, `get`, `touch`, `put_or_touch`,
and the renewal loop `keep_service_register` / `service_register`.

The store client is shallowly embedded: a `Store` value holds the key-value
pairs and the leases, an `Env` value is a failure-injection oracle deciding
which RPCs fail at the transport level, and every operation additionally
returns the list of RPCs it issued (`Rpc` trace).  Rust `i64` values are
modelled as `Int`; the one place a cast matters (`(config.ttl / 2) as u64`)
is modelled with explicit truncating division and `% 2 ^ 64`.
-/

/-- A stored key-value pair, as in `etcd_client::KeyValue`: the key, the
value, and the id of the lease the key is bound to (`0` = no lease). -/
structure KeyValue where
  key : String
  value : String
  lease : Int
deriving Repr, DecidableEq

/-- A lease held by the store: its id, its ttl in seconds, and the seconds
remaining before expiry.  A heartbeat resets `remaining` to `ttl`. -/
structure Lease where
  id : Int
  ttl : Int
  remaining : Int
deriving Repr, DecidableEq

/-- The etcd store state: the stored key-value pairs, the live leases, and
the next lease id the store will hand out (fresh-id counter). -/
structure Store where
  kvs : List KeyValue
  leases : List Lease
  nextLeaseId : Int
deriving Repr, DecidableEq

/-- Exact-key lookup, modelling `client.get(key, GetOptions::new().with_limit(1))`
followed by `.kvs().first()`: the stored pair whose key equals `key`, if any. -/
def Store.getFirst (s : Store) (key : String) : Option KeyValue :=
  s.kvs.find? (fun kv => kv.key = key)

/-- Modelled from the spec: `grant_lease(ttl) -> lease_id` of the external
Lease-Backed Store Client contract.  The store hands out the fresh id
`nextLeaseId` and records a lease for `ttl` seconds. -/
def Store.leaseGrant (s : Store) (ttl : Int) : Int × Store :=
  (s.nextLeaseId,
   { s with leases := s.leases ++ [⟨s.nextLeaseId, ttl, ttl⟩],
            nextLeaseId := s.nextLeaseId + 1 })

/-- Modelled from the spec: `put(key, value, lease_id_or_none) -> previous_value_or_none`
of the external store contract.  Creates or overwrites the pair at `key`,
binds it to `lease` (`0` = no lease), and returns the previous pair. -/
def Store.putKV (s : Store) (key value : String) (lease : Int) : Option KeyValue × Store :=
  match s.getFirst key with
  | some prev =>
      (some prev,
       { s with kvs := s.kvs.map (fun kv =>
           if kv.key = key then ⟨key, value, lease⟩ else kv) })
  | none => (none, { s with kvs := s.kvs ++ [⟨key, value, lease⟩] })

/-- Modelled from the spec: `heartbeat_lease(lease_id)` of the external store
contract — resets the lease's remaining TTL to its full duration, without
altering the lease id or the keys bound to it; on the sentinel "no lease"
id `0` it is a no-op. -/
def Store.heartbeat (s : Store) (id : Int) : Store :=
  if id = 0 then s
  else
    { s with leases := s.leases.map (fun l =>
        if l.id = id then { l with remaining := l.ttl } else l) }

/-- Failure-injection oracle for the RPC transport: each issued RPC consumes
one entry (`true` = that RPC fails); an exhausted oracle means every further
RPC succeeds. -/
structure Env where
  failures : List Bool
deriving Repr, DecidableEq

/-- Consume one oracle entry: whether the next RPC fails, and the rest. -/
def Env.step (env : Env) : Bool × Env :=
  match env.failures with
  | [] => (false, ⟨[]⟩)
  | b :: rest => (b, ⟨rest⟩)

/-- The RPCs an operation can issue against the store. -/
inductive Rpc where
  | get (key : String)
  | putKV (key value : String) (lease : Int)
  | leaseGrant (ttl : Int)
  | keepAlive (id : Int)
deriving Repr, DecidableEq

deriving instance DecidableEq for Except

/-- Result of one embedded operation: the Rust `Result`, the store state
after the call, the oracle state after the call, and the RPCs issued. -/
structure Outcome (α : Type) where
  result : Except String α
  store : Store
  env : Env
  trace : List Rpc
deriving Repr, DecidableEq

/-- `Etcd::put` (src/etcd.rs:72-93): with `ttl == 0` put the key with no
lease; otherwise first `lease_grant(ttl)` and then put the key bound to the
granted lease, in both cases returning the previous pair (`with_prev_key`). -/
def Etcd.put (key value : String) (ttl : Int) (s : Store) (env : Env) :
    Outcome (Option KeyValue) :=
  if ttl = 0 then
    let (fail, env') := env.step
    if fail then ⟨.error ("etcd put failed"), s, env', [Rpc.putKV key value 0]⟩
    else
      let (prev, s') := s.putKV key value 0
      ⟨.ok prev, s', env', [Rpc.putKV key value 0]⟩
  else
    let (fail, env') := env.step
    if fail then ⟨.error ("etcd lease_grant failed"), s, env', [Rpc.leaseGrant ttl]⟩
    else
      let (id, s') := s.leaseGrant ttl
      let (fail2, env'') := env'.step
      if fail2 then
        ⟨.error ("etcd put failed"), s', env'', [Rpc.leaseGrant ttl, Rpc.putKV key value id]⟩
      else
        let (prev, s'') := s'.putKV key value id
        ⟨.ok prev, s'', env'', [Rpc.leaseGrant ttl, Rpc.putKV key value id]⟩

/-- `Etcd::get` (src/etcd.rs:95-105): exact lookup with limit 1; a missing
key is the error `data not found`. -/
def Etcd.get (key : String) (s : Store) (env : Env) : Outcome KeyValue :=
  let (fail, env') := env.step
  if fail then ⟨.error ("etcd get failed"), s, env', [Rpc.get key]⟩
  else
    match s.getFirst key with
    | some kv => ⟨.ok kv, s, env', [Rpc.get key]⟩
    | none => ⟨.error ("data not found"), s, env', [Rpc.get key]⟩

/-- `Etcd::touch` (src/etcd.rs:138-155): read the key's lease id (missing
key counts as `0`); only when it is non-zero issue `lease_keep_alive`. -/
def Etcd.touch (key : String) (s : Store) (env : Env) : Outcome Unit :=
  let (fail, env') := env.step
  if fail then ⟨.error ("etcd get failed"), s, env', [Rpc.get key]⟩
  else
    let lease := ((s.getFirst key).map KeyValue.lease).getD 0
    if lease ≠ 0 then
      let (fail2, env'') := env'.step
      if fail2 then
        ⟨.error ("etcd lease_keep_alive failed"), s, env'', [Rpc.get key, Rpc.keepAlive lease]⟩
      else ⟨.ok (), s.heartbeat lease, env'', [Rpc.get key, Rpc.keepAlive lease]⟩
    else ⟨.ok (), s, env', [Rpc.get key]⟩

/-- `Etcd::put_or_touch` (src/etcd.rs:157-174): look the key up; if a pair
is found issue `lease_keep_alive` on its lease id unconditionally; if not
found fall through to `Etcd.put`. -/
def Etcd.put_or_touch (key value : String) (ttl : Int) (s : Store) (env : Env) :
    Outcome Unit :=
  let (fail, env') := env.step
  if fail then ⟨.error ("etcd get failed"), s, env', [Rpc.get key]⟩
  else
    match s.getFirst key with
    | some prev =>
        let (fail2, env'') := env'.step
        if fail2 then
          ⟨.error ("etcd lease_keep_alive failed"), s, env'',
            [Rpc.get key, Rpc.keepAlive prev.lease]⟩
        else
          ⟨.ok (), s.heartbeat prev.lease, env'',
            [Rpc.get key, Rpc.keepAlive prev.lease]⟩
    | none =>
        let o := Etcd.put key value ttl s env'
        ⟨match o.result with
          | .ok _ => .ok ()
          | .error e => .error e,
         o.store, o.env, Rpc.get key :: o.trace⟩

/-- Modelled from the spec: `ServiceRegisterConfig` lives in
`crate::service_register`, which is not part of the sources here; its fields
are the ones `etcd.rs` uses (`config.url`, `config.tags`, `config.ttl`) and
the spec's ServiceRegistration data model. -/
structure ServiceRegisterConfig where
  url : String
  tags : List String
  ttl : Int
deriving Repr, DecidableEq

/-- Rust `tag.split_once('=')`: split at the first `=`, the separator going
to neither side; `none` when the string has no `=`. -/
def splitOnceChar (c : Char) : List Char → Option (List Char × List Char)
  | [] => none
  | a :: rest =>
      if a = c then some ([], rest)
      else
        match splitOnceChar c rest with
        | some (l, r) => some (a :: l, r)
        | none => none

/-- `tag.split_once('=').unwrap_or_default()` (src/etcd.rs:227): the tag's
`(key, value)`, or `("", "")` when the tag has no `=`. -/
def parseTag (tag : String) : String × String :=
  match splitOnceChar '=' tag.toList with
  | some (l, r) => (String.mk l, String.mk r)
  | none => ("", "")

/-- The tick interval in whole seconds: `(config.ttl / 2) as u64` with Rust
`i64` truncating division and the two's-complement cast to `u64`. -/
def tickIntervalSecs (ttl : Int) : Nat := ((Int.tdiv ttl 2) % (2 ^ 64 : Int)).toNat

/-- The key-value records one tick reconciles, in the order the loop body
issues them (src/etcd.rs:203-231): the endpoint-URL record, the
router-binding record, then one record per tag. -/
def tickRecords (service_name : String) (config : ServiceRegisterConfig) :
    List (String × String) :=
  (("traefik/http/services/") ++ service_name ++ ("/loadbalancer/servers/")
      ++ service_name ++ ("/url"), config.url)
  :: (("traefik/http/routers/") ++ service_name ++ ("/service"), service_name)
  :: config.tags.map parseTag

/-- Result of running one tick (or several): the store and oracle after it,
the RPCs issued, the `put_or_touch` calls made (key, value, ttl) in order,
and the error messages logged via `error!`. -/
structure TickOutcome where
  store : Store
  env : Env
  trace : List Rpc
  calls : List (String × String × Int)
  logs : List String
deriving Repr, DecidableEq

/-- The loop body applied to a record list: each record is reconciled with
`put_or_touch`; a failure is logged (`keep_service_register failed: …`) and
the loop proceeds to the next record (src/etcd.rs:203-231). -/
def reconcileAll (ttl : Int) : List (String × String) → Store → Env → TickOutcome
  | [], s, env => ⟨s, env, [], [], []⟩
  | (key, value) :: rest, s, env =>
      let o := Etcd.put_or_touch key value ttl s env
      let logs :=
        match o.result with
        | .ok _ => ([] : List String)
        | .error e => [("keep_service_register failed: ") ++ e]
      let t := reconcileAll ttl rest o.store o.env
      ⟨t.store, t.env, o.trace ++ t.trace, (key, value, ttl) :: t.calls, logs ++ t.logs⟩

/-- One tick of the renewal loop: reconcile every record of the service. -/
def tick (service_name : String) (config : ServiceRegisterConfig)
    (s : Store) (env : Env) : TickOutcome :=
  reconcileAll config.ttl (tickRecords service_name config) s env

/-- The spawned renewal loop, reified as data: the registration it renews
and the tick interval computed for it. -/
structure RenewalLoop where
  service_name : String
  config : ServiceRegisterConfig
  intervalSecs : Nat
deriving Repr, DecidableEq

/-- Result of the synchronous part of `keep_service_register`: the returned
`Result`, the store and oracle (untouched — no RPC happens before the
spawn), the RPCs issued synchronously, and the detached loop. -/
structure RegisterResult where
  result : Except String Unit
  store : Store
  env : Env
  trace : List Rpc
  renewal : RenewalLoop
deriving Repr, DecidableEq

/-- `keep_service_register` (src/etcd.rs:185-235): compute the tick
interval, spawn the detached renewal loop, and return `Ok(())` at once;
no store RPC is issued before the spawn. -/
def keep_service_register (service_name : String) (config : ServiceRegisterConfig)
    (s : Store) (env : Env) : RegisterResult :=
  ⟨.ok (), s, env, [], ⟨service_name, config, tickIntervalSecs config.ttl⟩⟩

/-- `Etcd::service_register` (src/etcd.rs:176-183): delegates directly to
`keep_service_register`. -/
def service_register (service_name : String) (config : ServiceRegisterConfig)
    (s : Store) (env : Env) : RegisterResult :=
  keep_service_register service_name config s env

/-- `n` ticks of the detached renewal loop, in order. -/
def runTicks (lp : RenewalLoop) : Nat → Store → Env → TickOutcome
  | 0, s, env => ⟨s, env, [], [], []⟩
  | n + 1, s, env =>
      let t := tick lp.service_name lp.config s env
      let rest := runTicks lp n t.store t.env
      ⟨rest.store, rest.env, t.trace ++ rest.trace, t.calls ++ rest.calls,
        t.logs ++ rest.logs⟩

/-- The key a `get` RPC queries, if the RPC is a `get`. -/
def rpcGetKey : Rpc → Option String
  | Rpc.get k => some k
  | _ => none

theorem Store.heartbeat_kvs (s : Store) (id : Int) : (s.heartbeat id).kvs = s.kvs := by
  unfold Store.heartbeat
  split <;> rfl

theorem Store.heartbeat_nextLeaseId (s : Store) (id : Int) :
    (s.heartbeat id).nextLeaseId = s.nextLeaseId := by
  unfold Store.heartbeat
  split <;> rfl

theorem leases_map_idTtl (ls : List Lease) (id : Int) :
    (ls.map (fun l => if l.id = id then { l with remaining := l.ttl } else l)).map
        (fun l => (l.id, l.ttl))
      = ls.map (fun l => (l.id, l.ttl)) := by
  induction ls with
  | nil => rfl
  | cons a rest ih =>
      simp only [List.map_cons, ih]
      split <;> rfl

theorem Store.heartbeat_leases_idTtl (s : Store) (id : Int) :
    (s.heartbeat id).leases.map (fun l => (l.id, l.ttl))
      = s.leases.map (fun l => (l.id, l.ttl)) := by
  unfold Store.heartbeat
  split
  · rfl
  · exact leases_map_idTtl s.leases id

theorem Store.getFirst_congr (s s' : Store) (key : String) (h : s'.kvs = s.kvs) :
    s'.getFirst key = s.getFirst key := by
  unfold Store.getFirst
  rw [h]

theorem find?_replace (l : List KeyValue) (key value : String) (lease : Int)
    (h : l.find? (fun kv => kv.key = key) ≠ none) :
    (l.map (fun kv => if kv.key = key then ⟨key, value, lease⟩ else kv)).find?
        (fun kv => kv.key = key) = some ⟨key, value, lease⟩ := by
  induction l with
  | nil => exact absurd rfl h
  | cons a rest ih =>
      simp only [List.map_cons]
      by_cases ha : a.key = key
      · rw [if_pos ha]
        exact List.find?_cons_of_pos _ (by simp)
      · rw [if_neg ha]
        rw [List.find?_cons_of_neg _ (by simpa using ha)]
        rw [List.find?_cons_of_neg _ (by simpa using ha)] at h
        exact ih h

theorem find?_append_single (l : List KeyValue) (x : KeyValue) (p : KeyValue → Bool)
    (h : l.find? p = none) (hx : p x = true) : (l ++ [x]).find? p = some x := by
  induction l with
  | nil =>
      rw [List.nil_append]
      exact List.find?_cons_of_pos _ hx
  | cons a rest ih =>
      have hpa : ¬ p a = true := by
        intro hp
        rw [List.find?_cons_of_pos _ hp] at h
        cases h
      rw [List.cons_append, List.find?_cons_of_neg _ hpa]
      rw [List.find?_cons_of_neg _ hpa] at h
      exact ih h

theorem Store.getFirst_putKV_self (s : Store) (key value : String) (lease : Int) :
    ((s.putKV key value lease).2).getFirst key = some ⟨key, value, lease⟩ := by
  unfold Store.putKV
  cases h : s.getFirst key with
  | some prev =>
      simp only [Store.getFirst] at h ⊢
      exact find?_replace s.kvs key value lease (by rw [h]; simp)
  | none =>
      simp only [Store.getFirst] at h ⊢
      exact find?_append_single s.kvs ⟨key, value, lease⟩ _ h (by simp)

theorem Env.step_nil : Env.step ⟨[]⟩ = (false, ⟨[]⟩) := rfl

theorem Env.step_cons (b : Bool) (rest : List Bool) : Env.step ⟨b :: rest⟩ = (b, ⟨rest⟩) := rfl

theorem putKV_fst (s : Store) (key value : String) (lease : Int) :
    (s.putKV key value lease).1 = s.getFirst key := by
  unfold Store.putKV
  cases h : s.getFirst key <;> rfl

theorem leaseGrant_fst (s : Store) (ttl : Int) : (s.leaseGrant ttl).1 = s.nextLeaseId := rfl

theorem leaseGrant_kvs (s : Store) (ttl : Int) : ((s.leaseGrant ttl).2).kvs = s.kvs := rfl

theorem put_store_zero (key value : String) (s : Store) (env env' : Env)
    (hstep : env.step = (false, env')) :
    Etcd.put key value 0 s env =
      ⟨.ok (s.getFirst key), (s.putKV key value 0).2, env', [Rpc.putKV key value 0]⟩ := by
  rcases hp : s.putKV key value 0 with ⟨prev, s'⟩
  have h1 : prev = s.getFirst key := by rw [← putKV_fst s key value 0, hp]
  have h2 : s' = (s.putKV key value 0).2 := by rw [hp]
  simp only [Etcd.put, if_pos rfl, hstep, hp]
  rw [h1, h2]
  simp

theorem put_store_nonzero (key value : String) (ttl : Int) (s : Store) (env env' env'' : Env)
    (h0 : ttl ≠ 0) (hstep : env.step = (false, env')) (hstep2 : env'.step = (false, env'')) :
    Etcd.put key value ttl s env =
      ⟨.ok (s.getFirst key), (((s.leaseGrant ttl).2).putKV key value s.nextLeaseId).2, env'',
        [Rpc.leaseGrant ttl, Rpc.putKV key value s.nextLeaseId]⟩ := by
  rcases hg : s.leaseGrant ttl with ⟨id, s1⟩
  have hid : id = s.nextLeaseId := by rw [← leaseGrant_fst s ttl, hg]
  have hs1 : s1 = (s.leaseGrant ttl).2 := by rw [hg]
  rcases hp : s1.putKV key value id with ⟨prev, s2⟩
  have hprev : prev = s1.getFirst key := by rw [← putKV_fst s1 key value id, hp]
  have hfirst : s1.getFirst key = s.getFirst key := by
    apply Store.getFirst_congr
    rw [hs1]
    exact rfl
  have hs2 : s2 = (s1.putKV key value id).2 := by rw [hp]
  simp only [Etcd.put, if_neg h0, hstep, hg, hstep2, hp]
  rw [hprev, hfirst, hs2, hs1, hid]
  simp

theorem pot_getfail (key value : String) (ttl : Int) (s : Store) (env env' : Env)
    (hstep : env.step = (true, env')) :
    Etcd.put_or_touch key value ttl s env =
      ⟨.error ("etcd get failed"), s, env', [Rpc.get key]⟩ := by
  simp only [Etcd.put_or_touch, hstep]
  rfl

theorem pot_found (key value : String) (ttl : Int) (s : Store) (env env' : Env)
    (kv : KeyValue) (h : s.getFirst key = some kv) (hstep : env.step = (false, env')) :
    Etcd.put_or_touch key value ttl s env =
      (let (fail2, env'') := env'.step
       if fail2 then
         ⟨.error ("etcd lease_keep_alive failed"), s, env'',
           [Rpc.get key, Rpc.keepAlive kv.lease]⟩
       else
         ⟨.ok (), s.heartbeat kv.lease, env'',
           [Rpc.get key, Rpc.keepAlive kv.lease]⟩) := by
  simp only [Etcd.put_or_touch, hstep, h]
  simp

theorem pot_notfound (key value : String) (ttl : Int) (s : Store) (env env' : Env)
    (h : s.getFirst key = none) (hstep : env.step = (false, env')) :
    Etcd.put_or_touch key value ttl s env =
      (let o := Etcd.put key value ttl s env'
       ⟨match o.result with | .ok _ => Except.ok () | .error e => Except.error e,
        o.store, o.env, Rpc.get key :: o.trace⟩) := by
  simp only [Etcd.put_or_touch, hstep, h]
  simp

theorem pot_found_nofail (key value : String) (ttl : Int) (s : Store)
    (kv : KeyValue) (h : s.getFirst key = some kv) :
    Etcd.put_or_touch key value ttl s ⟨[]⟩ =
      ⟨.ok (), s.heartbeat kv.lease, ⟨[]⟩, [Rpc.get key, Rpc.keepAlive kv.lease]⟩ := by
  rw [pot_found key value ttl s ⟨[]⟩ ⟨[]⟩ kv h Env.step_nil]
  simp [Env.step_nil]

theorem pot_found_shape (key value : String) (ttl : Int) (s : Store) (env : Env)
    (kv : KeyValue) (h : s.getFirst key = some kv) :
    ((Etcd.put_or_touch key value ttl s env).store = s
        ∨ (Etcd.put_or_touch key value ttl s env).store = s.heartbeat kv.lease)
    ∧ ((Etcd.put_or_touch key value ttl s env).trace = [Rpc.get key]
        ∨ (Etcd.put_or_touch key value ttl s env).trace
            = [Rpc.get key, Rpc.keepAlive kv.lease]) := by
  rcases hstep : env.step with ⟨fail, env'⟩
  cases fail
  · rw [pot_found key value ttl s env env' kv h hstep]
    rcases hstep2 : env'.step with ⟨fail2, env''⟩
    cases fail2 <;> simp [hstep2]
  · rw [pot_getfail key value ttl s env env' hstep]
    simp

theorem put_trace_no_get (key value : String) (ttl : Int) (s : Store) (env : Env) :
    (Etcd.put key value ttl s env).trace.filterMap rpcGetKey = [] := by
  rcases hstep : env.step with ⟨fail, env'⟩
  by_cases h0 : ttl = 0
  · subst h0
    cases fail <;>
      · rcases hp : s.putKV key value 0 with ⟨prev, s'⟩
        simp [Etcd.put, hstep, hp, rpcGetKey]
  · cases fail
    · rcases hg : s.leaseGrant ttl with ⟨id, s1⟩
      rcases hstep2 : env'.step with ⟨fail2, env''⟩
      cases fail2 <;>
        · rcases hp : s1.putKV key value id with ⟨prev, s2⟩
          simp [Etcd.put, if_neg h0, hstep, hg, hstep2, hp, rpcGetKey]
    · simp [Etcd.put, if_neg h0, hstep, rpcGetKey]

theorem pot_trace_getKeys (key value : String) (ttl : Int) (s : Store) (env : Env) :
    (Etcd.put_or_touch key value ttl s env).trace.filterMap rpcGetKey = [key] := by
  rcases hstep : env.step with ⟨fail, env'⟩
  cases fail
  · cases h : s.getFirst key with
    | some kv =>
        rw [pot_found key value ttl s env env' kv h hstep]
        rcases hstep2 : env'.step with ⟨fail2, env''⟩
        cases fail2 <;> simp [hstep2, rpcGetKey]
    | none =>
        rw [pot_notfound key value ttl s env env' h hstep]
        simp [rpcGetKey, put_trace_no_get]
  · rw [pot_getfail key value ttl s env env' hstep]
    simp [rpcGetKey]

theorem pot_nofail_key_exists (key value : String) (ttl : Int) (s : Store) :
    ∃ kv : KeyValue, (Etcd.put_or_touch key value ttl s ⟨[]⟩).store.getFirst key = some kv := by
  cases h : s.getFirst key with
  | some kv =>
      refine ⟨kv, ?_⟩
      rw [pot_found_nofail key value ttl s kv h]
      rw [Store.getFirst_congr s (s.heartbeat kv.lease) key (Store.heartbeat_kvs s kv.lease)]
      exact h
  | none =>
      rw [pot_notfound key value ttl s ⟨[]⟩ ⟨[]⟩ h Env.step_nil]
      by_cases h0 : ttl = 0
      · subst h0
        rw [put_store_zero key value s ⟨[]⟩ ⟨[]⟩ Env.step_nil]
        exact ⟨⟨key, value, 0⟩, Store.getFirst_putKV_self s key value 0⟩
      · rw [put_store_nonzero key value ttl s ⟨[]⟩ ⟨[]⟩ ⟨[]⟩ h0 Env.step_nil Env.step_nil]
        exact ⟨⟨key, value, s.nextLeaseId⟩, Store.getFirst_putKV_self _ key value _⟩

theorem reconcileAll_calls (ttl : Int) (records : List (String × String))
    (s : Store) (env : Env) :
    (reconcileAll ttl records s env).calls = records.map (fun r => (r.1, r.2, ttl)) := by
  induction records generalizing s env with
  | nil => rfl
  | cons r rest ih =>
      rcases r with ⟨key, value⟩
      simp only [reconcileAll, List.map_cons]
      rw [ih]

theorem reconcileAll_getKeys (ttl : Int) (records : List (String × String))
    (s : Store) (env : Env) :
    (reconcileAll ttl records s env).trace.filterMap rpcGetKey
      = records.map Prod.fst := by
  induction records generalizing s env with
  | nil => rfl
  | cons r rest ih =>
      rcases r with ⟨key, value⟩
      simp only [reconcileAll, List.map_cons, List.filterMap_append]
      rw [ih, pot_trace_getKeys]
      rfl


/-- Claim C1: when `put_or_touch` finds an existing record, a heartbeat is
issued on the found record's lease id regardless of whether that lease id is
non-zero; and when the found lease id is the sentinel "no lease" value `0`,
the heartbeat is a no-op on the store and `put_or_touch` returns no error. -/
theorem put_or_touch_found_heartbeats (key value : String) (ttl : Int) (s : Store)
    (kv : KeyValue) (h : s.getFirst key = some kv) :
    (Etcd.put_or_touch key value ttl s ⟨[]⟩).trace = [Rpc.get key, Rpc.keepAlive kv.lease]
    ∧ (kv.lease = 0 →
        (Etcd.put_or_touch key value ttl s ⟨[]⟩).result = .ok ()
        ∧ (Etcd.put_or_touch key value ttl s ⟨[]⟩).store = s) := by
  rw [pot_found_nofail key value ttl s kv h]
  refine ⟨rfl, fun h0 => ⟨rfl, ?_⟩⟩
  simp [Store.heartbeat, h0]

/-- Witness for Claim C1 at a store holding key `k` with the sentinel lease
id `0`. -/
theorem put_or_touch_found_heartbeats_witness :
    (Etcd.put_or_touch ("k") ("v") 5 ⟨[⟨("k"), ("v"), 0⟩], [], 1⟩ ⟨[]⟩).trace
        = [Rpc.get ("k"), Rpc.keepAlive 0]
    ∧ ((0 : Int) = 0 →
        (Etcd.put_or_touch ("k") ("v") 5 ⟨[⟨("k"), ("v"), 0⟩], [], 1⟩ ⟨[]⟩).result = .ok ()
        ∧ (Etcd.put_or_touch ("k") ("v") 5 ⟨[⟨("k"), ("v"), 0⟩], [], 1⟩ ⟨[]⟩).store
            = ⟨[⟨("k"), ("v"), 0⟩], [], 1⟩) :=
  put_or_touch_found_heartbeats ("k") ("v") 5 ⟨[⟨("k"), ("v"), 0⟩], [], 1⟩
    ⟨("k"), ("v"), 0⟩ (by decide)

/-- Claim C2: if the key already exists when `put_or_touch` is called, the
stored pairs — in particular the value of that key — are unchanged after the
call, no put RPC is issued on the found branch, and only lease liveness is
refreshed: lease ids and ttls are untouched and no new lease id is consumed. -/
theorem put_or_touch_found_value_unchanged (key value : String) (ttl : Int) (s : Store)
    (env : Env) (kv : KeyValue) (h : s.getFirst key = some kv) :
    (Etcd.put_or_touch key value ttl s env).store.kvs = s.kvs
    ∧ (Etcd.put_or_touch key value ttl s env).store.getFirst key = some kv
    ∧ (Etcd.put_or_touch key value ttl s env).store.nextLeaseId = s.nextLeaseId
    ∧ (Etcd.put_or_touch key value ttl s env).store.leases.map (fun l => (l.id, l.ttl))
        = s.leases.map (fun l => (l.id, l.ttl))
    ∧ ∀ (k' v' : String) (l' : Int),
        Rpc.putKV k' v' l' ∉ (Etcd.put_or_touch key value ttl s env).trace := by
  obtain ⟨hstore, htrace⟩ := pot_found_shape key value ttl s env kv h
  have hkvs : (Etcd.put_or_touch key value ttl s env).store.kvs = s.kvs := by
    rcases hstore with h1 | h1
    · rw [h1]
    · rw [h1]
      exact Store.heartbeat_kvs s kv.lease
  refine ⟨hkvs, ?_, ?_, ?_, ?_⟩
  · have hc := Store.getFirst_congr s (Etcd.put_or_touch key value ttl s env).store key hkvs
    rw [hc, h]
  · rcases hstore with h1 | h1
    · rw [h1]
    · rw [h1]
      exact Store.heartbeat_nextLeaseId s kv.lease
  · rcases hstore with h1 | h1
    · rw [h1]
    · rw [h1]
      exact Store.heartbeat_leases_idTtl s kv.lease
  · intro k' v' l'
    rcases htrace with h1 | h1 <;> rw [h1] <;> simp

/-- Witness for Claim C2 at a store holding key `k` bound to lease `7`,
with an oracle that fails the heartbeat RPC. -/
theorem put_or_touch_found_value_unchanged_witness :
    (Store.getFirst ⟨[⟨("k"), ("old"), 7⟩], [⟨7, 9, 3⟩], 8⟩ ("k") = some ⟨("k"), ("old"), 7⟩)
    ∧ (Etcd.put_or_touch ("k") ("w") 9 ⟨[⟨("k"), ("old"), 7⟩], [⟨7, 9, 3⟩], 8⟩
        ⟨[false, true]⟩).store.kvs = [⟨("k"), ("old"), 7⟩] :=
  ⟨by decide,
   (put_or_touch_found_value_unchanged ("k") ("w") 9 ⟨[⟨("k"), ("old"), 7⟩], [⟨7, 9, 3⟩], 8⟩
      ⟨[false, true]⟩ ⟨("k"), ("old"), 7⟩ (by decide)).1⟩

/-- Claim C3: `put_or_touch` is idempotent: running it a second time on the
store state the first call produced leaves the pair stored at the key exactly
as the first call left it, and the second call issues no put RPC at all. -/
theorem put_or_touch_idempotent (key value : String) (ttl : Int) (s : Store) :
    (Etcd.put_or_touch key value ttl
        (Etcd.put_or_touch key value ttl s ⟨[]⟩).store ⟨[]⟩).store.getFirst key
      = (Etcd.put_or_touch key value ttl s ⟨[]⟩).store.getFirst key
    ∧ ∀ (k' v' : String) (l' : Int),
        Rpc.putKV k' v' l' ∉
          (Etcd.put_or_touch key value ttl
            (Etcd.put_or_touch key value ttl s ⟨[]⟩).store ⟨[]⟩).trace := by
  obtain ⟨kv1, hkv1⟩ := pot_nofail_key_exists key value ttl s
  rw [pot_found_nofail key value ttl (Etcd.put_or_touch key value ttl s ⟨[]⟩).store kv1 hkv1]
  constructor
  · exact Store.getFirst_congr (Etcd.put_or_touch key value ttl s ⟨[]⟩).store
      ((Etcd.put_or_touch key value ttl s ⟨[]⟩).store.heartbeat kv1.lease) key
      (Store.heartbeat_kvs (Etcd.put_or_touch key value ttl s ⟨[]⟩).store kv1.lease)
  · intro k' v' l'
    simp

/-- Claim C4: for every `ttl > 0` in the registration config (within the
`i64` range of the source), the renewal tick interval computed by
`keep_service_register` equals `ttl / 2` seconds, integer division as in
the source's `Duration::from_secs((config.ttl / 2) as u64)`. -/
theorem keep_service_register_interval (service_name : String)
    (config : ServiceRegisterConfig) (s : Store) (env : Env)
    (h1 : 0 < config.ttl) (h2 : config.ttl < 2 ^ 63) :
    ((keep_service_register service_name config s env).renewal.intervalSecs : Int)
      = config.ttl / 2 := by
  show ((tickIntervalSecs config.ttl : Nat) : Int) = config.ttl / 2
  unfold tickIntervalSecs
  rw [Int.tdiv_eq_ediv (le_of_lt h1) (by norm_num)]
  have hnn : 0 ≤ config.ttl / 2 := Int.ediv_nonneg (le_of_lt h1) (by norm_num)
  have hlt : config.ttl / 2 < 2 ^ 64 := by omega
  rw [Int.emod_eq_of_lt hnn hlt]
  exact Int.toNat_of_nonneg hnn

/-- Witness for Claim C4 at `ttl = 10`: the computed interval is 5 seconds. -/
theorem keep_service_register_interval_witness :
    (0 : Int) < 10
    ∧ ((keep_service_register ("svc") ⟨("u"), [], 10⟩ ⟨[], [], 1⟩ ⟨[]⟩).renewal.intervalSecs : Int)
        = 10 / 2 :=
  ⟨by norm_num,
   keep_service_register_interval ("svc") ⟨("u"), [], 10⟩ ⟨[], [], 1⟩ ⟨[]⟩
     (by norm_num) (by norm_num)⟩

/-- Claim C5: each tick reconciles records in this fixed order with these
exact keys and values: first the endpoint-URL record, then the
router-binding record, then one record per tag in the supplied order. -/
theorem tick_reconciles_in_order (service_name : String)
    (config : ServiceRegisterConfig) (s : Store) (env : Env) :
    (tick service_name config s env).calls =
      ((("traefik/http/services/") ++ service_name ++ ("/loadbalancer/servers/")
          ++ service_name ++ ("/url")), config.url, config.ttl)
      :: ((("traefik/http/routers/") ++ service_name ++ ("/service")), service_name, config.ttl)
      :: config.tags.map (fun tag => ((parseTag tag).1, (parseTag tag).2, config.ttl)) := by
  show (reconcileAll config.ttl (tickRecords service_name config) s env).calls = _
  rw [reconcileAll_calls]
  simp [tickRecords, List.map_map, Function.comp]

theorem splitOnceChar_of_not_mem (c : Char) (t : List Char) (h : c ∉ t) :
    splitOnceChar c t = none := by
  induction t with
  | nil => rfl
  | cons a rest ih =>
      have ha : ¬ a = c := by
        intro hac
        exact h (hac ▸ List.mem_cons_self a rest)
      simp only [splitOnceChar, if_neg ha]
      rw [ih (fun hm => h (List.mem_cons_of_mem a hm))]

theorem splitOnceChar_first (c : Char) (k v : List Char) (h : c ∉ k) :
    splitOnceChar c (k ++ c :: v) = some (k, v) := by
  induction k with
  | nil => simp [splitOnceChar]
  | cons a rest ih =>
      have ha : ¬ a = c := by
        intro hac
        exact h (hac ▸ List.mem_cons_self a rest)
      simp only [List.cons_append, splitOnceChar, if_neg ha, List.append_eq]
      rw [ih (fun hm => h (List.mem_cons_of_mem a hm))]

/-- Claim C6: within one tick, a reconciliation failure for an individual
record is logged (`keep_service_register failed: …`) and does not abort the
tick — the remaining records are still reconciled (every record's lookup is
issued no matter what fails) — and the loop then runs the next scheduled
tick; no failure terminates the loop or is returned to a caller. -/
theorem tick_failure_logged_not_aborted :
    (∀ (ttl : Int) (key value : String) (rest : List (String × String))
        (s : Store) (env : Env) (e : String) (o : Outcome Unit),
      o = Etcd.put_or_touch key value ttl s env →
      o.result = .error e →
      reconcileAll ttl ((key, value) :: rest) s env =
        ⟨(reconcileAll ttl rest o.store o.env).store,
         (reconcileAll ttl rest o.store o.env).env,
         o.trace ++ (reconcileAll ttl rest o.store o.env).trace,
         (key, value, ttl) :: (reconcileAll ttl rest o.store o.env).calls,
         (("keep_service_register failed: ") ++ e)
           :: (reconcileAll ttl rest o.store o.env).logs⟩)
    ∧ (∀ (service_name : String) (config : ServiceRegisterConfig) (s : Store) (env : Env)
        (r : String × String),
      r ∈ tickRecords service_name config →
      Rpc.get r.1 ∈ (tick service_name config s env).trace)
    ∧ (∀ (lp : RenewalLoop) (n : Nat) (s : Store) (env : Env),
      runTicks lp (n + 1) s env =
        ⟨(runTicks lp n (tick lp.service_name lp.config s env).store
            (tick lp.service_name lp.config s env).env).store,
         (runTicks lp n (tick lp.service_name lp.config s env).store
            (tick lp.service_name lp.config s env).env).env,
         (tick lp.service_name lp.config s env).trace
           ++ (runTicks lp n (tick lp.service_name lp.config s env).store
                (tick lp.service_name lp.config s env).env).trace,
         (tick lp.service_name lp.config s env).calls
           ++ (runTicks lp n (tick lp.service_name lp.config s env).store
                (tick lp.service_name lp.config s env).env).calls,
         (tick lp.service_name lp.config s env).logs
           ++ (runTicks lp n (tick lp.service_name lp.config s env).store
                (tick lp.service_name lp.config s env).env).logs⟩) := by
  refine ⟨?_, ?_, ?_⟩
  · intro ttl key value rest s env e o ho herr
    subst ho
    simp only [reconcileAll, herr]
    simp
  · intro service_name config s env r hr
    have h1 : r.1 ∈ (tick service_name config s env).trace.filterMap rpcGetKey := by
      rw [tick, reconcileAll_getKeys]
      exact List.mem_map_of_mem Prod.fst hr
    rcases List.mem_filterMap.mp h1 with ⟨rpc, hmem, hsome⟩
    cases rpc with
    | get k =>
        simp only [rpcGetKey, Option.some.injEq] at hsome
        rw [← hsome]
        exact hmem
    | putKV k v l => simp [rpcGetKey] at hsome
    | leaseGrant t => simp [rpcGetKey] at hsome
    | keepAlive i => simp [rpcGetKey] at hsome
  · intro lp n s env
    rfl

/-- Witness for Claim C6: with an oracle failing the very first RPC, the
lookup of record `k` fails, the failure is logged, and the tick completes. -/
theorem tick_failure_logged_not_aborted_witness :
    (Etcd.put_or_touch ("k") ("v") 5 ⟨[], [], 1⟩ ⟨[true]⟩).result = .error ("etcd get failed")
    ∧ reconcileAll 5 [(("k"), ("v"))] ⟨[], [], 1⟩ ⟨[true]⟩ =
        ⟨⟨[], [], 1⟩, ⟨[]⟩, [Rpc.get ("k")], [(("k"), ("v"), 5)],
         [("keep_service_register failed: ") ++ ("etcd get failed")]⟩ :=
  ⟨by decide,
   by
     have h := tick_failure_logged_not_aborted.1 5 ("k") ("v") [] ⟨[], [], 1⟩ ⟨[true]⟩
       ("etcd get failed") (Etcd.put_or_touch ("k") ("v") 5 ⟨[], [], 1⟩ ⟨[true]⟩)
       rfl (by decide)
     exact h.trans (by decide)⟩

/-- Claim C7: a tag is parsed into (key, value) by splitting at the first
`=` — `a=b` yields key `a` and value `b` — and a tag containing no `=`
yields key `""` and value `""`, passed through rather than rejected. -/
theorem parseTag_splits_at_first_eq :
    (∀ (k v : List Char), ('=') ∉ k →
      parseTag (String.mk (k ++ ('=') :: v)) = (String.mk k, String.mk v))
    ∧ (∀ t : List Char, ('=') ∉ t → parseTag (String.mk t) = (("") , ("")))
    ∧ parseTag ("a=b") = (("a"), ("b"))
    ∧ parseTag ("noequals") = (("") , ("")) := by
  refine ⟨?_, ?_, by decide, by decide⟩
  · intro k v h
    unfold parseTag
    rw [show (String.mk (k ++ ('=') :: v)).toList = k ++ ('=') :: v from rfl]
    rw [splitOnceChar_first ('=') k v h]
  · intro t h
    unfold parseTag
    rw [show (String.mk t).toList = t from rfl]
    rw [splitOnceChar_of_not_mem ('=') t h]

/-- Witness for Claim C7 at the tag `a=b` built as a character list. -/
theorem parseTag_splits_at_first_eq_witness :
    ('=') ∉ [('a')]
    ∧ parseTag (String.mk ([('a')] ++ ('=') :: [('b')]))
        = (String.mk [('a')], String.mk [('b')]) :=
  ⟨by decide, parseTag_splits_at_first_eq.1 [('a')] [('b')] (by decide)⟩

theorem putKV_leases (s : Store) (key value : String) (lease : Int) :
    ((s.putKV key value lease).2).leases = s.leases := by
  unfold Store.putKV
  cases h : s.getFirst key <;> rfl

theorem leaseGrant_leases (s : Store) (ttl : Int) :
    ((s.leaseGrant ttl).2).leases = s.leases ++ [⟨s.nextLeaseId, ttl, ttl⟩] := rfl

/-- Claim C8: `put` with `ttl == 0` stores the key with no lease attached
and grants no lease; with `ttl != 0` it first grants a fresh lease for `ttl`
and then puts the key bound to that lease; on success it returns the key's
previous pair (`none` when the key did not exist); and when the lease grant
fails, the put is not performed and the store state is unchanged. -/
theorem put_semantics (key value : String) (ttl : Int) (s : Store) :
    (ttl = 0 →
      (Etcd.put key value ttl s ⟨[]⟩).result = .ok (s.getFirst key)
      ∧ (Etcd.put key value ttl s ⟨[]⟩).store.getFirst key = some ⟨key, value, 0⟩
      ∧ ∀ t : Int, Rpc.leaseGrant t ∉ (Etcd.put key value ttl s ⟨[]⟩).trace)
    ∧ (ttl ≠ 0 →
      (Etcd.put key value ttl s ⟨[]⟩).result = .ok (s.getFirst key)
      ∧ (Etcd.put key value ttl s ⟨[]⟩).trace
          = [Rpc.leaseGrant ttl, Rpc.putKV key value s.nextLeaseId]
      ∧ (Etcd.put key value ttl s ⟨[]⟩).store.getFirst key
          = some ⟨key, value, s.nextLeaseId⟩
      ∧ (⟨s.nextLeaseId, ttl, ttl⟩ : Lease) ∈ (Etcd.put key value ttl s ⟨[]⟩).store.leases)
    ∧ (∀ env : Env, ttl ≠ 0 → (env.step).1 = true →
      (Etcd.put key value ttl s env).result = .error ("etcd lease_grant failed")
      ∧ (Etcd.put key value ttl s env).store = s
      ∧ ∀ (k' v' : String) (l' : Int),
          Rpc.putKV k' v' l' ∉ (Etcd.put key value ttl s env).trace) := by
  refine ⟨?_, ?_, ?_⟩
  · intro h0
    subst h0
    rw [put_store_zero key value s ⟨[]⟩ ⟨[]⟩ Env.step_nil]
    refine ⟨rfl, Store.getFirst_putKV_self s key value 0, ?_⟩
    intro t
    simp
  · intro h0
    rw [put_store_nonzero key value ttl s ⟨[]⟩ ⟨[]⟩ ⟨[]⟩ h0 Env.step_nil Env.step_nil]
    refine ⟨rfl, rfl, Store.getFirst_putKV_self _ key value _, ?_⟩
    rw [show ((((s.leaseGrant ttl).2).putKV key value s.nextLeaseId).2).leases
          = ((s.leaseGrant ttl).2).leases from putKV_leases _ key value _]
    rw [leaseGrant_leases]
    simp
  · intro env h0 hfail
    rcases hstep : env.step with ⟨fail, env'⟩
    rw [hstep] at hfail
    simp only at hfail
    subst hfail
    simp [Etcd.put, hstep, h0]

/-- Witness for Claim C8: an empty store, `ttl = 0`, `ttl = 7`, and a
grant-failing oracle. -/
theorem put_semantics_witness :
    ((0 : Int) = 0 ∧ (Etcd.put ("k") ("v") 0 ⟨[], [], 1⟩ ⟨[]⟩).result = .ok none)
    ∧ ((7 : Int) ≠ 0 ∧ (Etcd.put ("k") ("v") 7 ⟨[], [], 1⟩ ⟨[]⟩).trace
          = [Rpc.leaseGrant 7, Rpc.putKV ("k") ("v") 1])
    ∧ ((Env.step ⟨[true]⟩).1 = true
        ∧ (Etcd.put ("k") ("v") 7 ⟨[], [], 1⟩ ⟨[true]⟩).store = ⟨[], [], 1⟩) :=
  ⟨⟨rfl, ((put_semantics ("k") ("v") 0 ⟨[], [], 1⟩).1 rfl).1⟩,
   ⟨by norm_num, ((put_semantics ("k") ("v") 7 ⟨[], [], 1⟩).2.1 (by norm_num)).2.1⟩,
   ⟨rfl, ((put_semantics ("k") ("v") 7 ⟨[], [], 1⟩).2.2 ⟨[true]⟩ (by norm_num) rfl).2.1⟩⟩

theorem reconcileAll_logs_shape (ttl : Int) (records : List (String × String)) (s : Store)
    (env : Env) (msg : String) (h : msg ∈ (reconcileAll ttl records s env).logs) :
    ∃ e : String, msg = ("keep_service_register failed: ") ++ e := by
  induction records generalizing s env with
  | nil => cases h
  | cons r rest ih =>
      rcases r with ⟨key, value⟩
      simp only [reconcileAll] at h
      rcases List.mem_append.mp h with h1 | h2
      · cases ho : (Etcd.put_or_touch key value ttl s env).result with
        | error e =>
            simp only [ho, List.mem_singleton] at h1
            exact ⟨e, h1⟩
        | ok u =>
            simp [ho] at h1
      · exact ih _ _ h2

theorem runTicks_logs_shape (lp : RenewalLoop) (n : Nat) (s : Store) (env : Env)
    (msg : String) (h : msg ∈ (runTicks lp n s env).logs) :
    ∃ e : String, msg = ("keep_service_register failed: ") ++ e := by
  induction n generalizing s env with
  | zero => cases h
  | succ n ih =>
      simp only [runTicks] at h
      rcases List.mem_append.mp h with h1 | h2
      · exact reconcileAll_logs_shape lp.config.ttl (tickRecords lp.service_name lp.config)
          s env msg h1
      · exact ih _ _ h2

/-- Claim C9: `service_register` (delegating to `keep_service_register`)
returns success immediately, before any store RPC is attempted: for every
store and every failure pattern the synchronous call returns `Ok(())`,
issues no RPC, and leaves the store untouched; and every store failure
inside the detached renewal loop surfaces only as a logged
`keep_service_register failed: …` entry. -/
theorem service_register_immediate_ok (service_name : String)
    (config : ServiceRegisterConfig) (s : Store) (env : Env) :
    service_register service_name config s env
        = keep_service_register service_name config s env
    ∧ (service_register service_name config s env).result = .ok ()
    ∧ (service_register service_name config s env).trace = []
    ∧ (service_register service_name config s env).store = s
    ∧ (service_register service_name config s env).env = env
    ∧ (∀ (n : Nat) (env' : Env) (msg : String),
        msg ∈ (runTicks (service_register service_name config s env).renewal n s env').logs →
        ∃ e : String, msg = ("keep_service_register failed: ") ++ e) := by
  refine ⟨rfl, rfl, rfl, rfl, rfl, ?_⟩
  intro n env' msg h
  exact runTicks_logs_shape _ n s env' msg h

/-- Witness for Claim C9: one tick under an oracle failing the first RPC
logs exactly one failure entry, and the synchronous call itself succeeded. -/
theorem service_register_immediate_ok_witness :
    (service_register ("svc") ⟨("u"), [], 5⟩ ⟨[], [], 1⟩ ⟨[]⟩).result = .ok ()
    ∧ (("keep_service_register failed: etcd get failed")
        ∈ (runTicks (service_register ("svc") ⟨("u"), [], 5⟩ ⟨[], [], 1⟩ ⟨[]⟩).renewal
            1 ⟨[], [], 1⟩ ⟨[true]⟩).logs)
    ∧ ∃ e : String, ("keep_service_register failed: etcd get failed")
        = ("keep_service_register failed: ") ++ e :=
  ⟨(service_register_immediate_ok ("svc") ⟨("u"), [], 5⟩ ⟨[], [], 1⟩ ⟨[]⟩).2.1,
   by decide,
   (service_register_immediate_ok ("svc") ⟨("u"), [], 5⟩ ⟨[], [], 1⟩ ⟨[]⟩).2.2.2.2.2
     1 ⟨[true]⟩ ("keep_service_register failed: etcd get failed") (by decide)⟩

/-- Claim C10: `touch` succeeds without issuing any heartbeat RPC when the
key is absent or the key's lease id is `0`; a heartbeat is issued only when
the key exists with a non-zero lease id; and — unlike `get`, which fails
with `data not found` — `touch` on a missing key is not an error. -/
theorem touch_semantics (key : String) (s : Store) :
    (s.getFirst key = none →
      Etcd.touch key s ⟨[]⟩ = ⟨.ok (), s, ⟨[]⟩, [Rpc.get key]⟩
      ∧ (Etcd.get key s ⟨[]⟩).result = .error ("data not found"))
    ∧ (∀ kv : KeyValue, s.getFirst key = some kv → kv.lease = 0 →
        Etcd.touch key s ⟨[]⟩ = ⟨.ok (), s, ⟨[]⟩, [Rpc.get key]⟩)
    ∧ (∀ kv : KeyValue, s.getFirst key = some kv → kv.lease ≠ 0 →
        (Etcd.touch key s ⟨[]⟩).trace = [Rpc.get key, Rpc.keepAlive kv.lease]
        ∧ (Etcd.touch key s ⟨[]⟩).result = .ok ()) := by
  refine ⟨?_, ?_, ?_⟩
  · intro h
    constructor
    · simp [Etcd.touch, Env.step_nil, h]
    · simp [Etcd.get, Env.step_nil, h]
  · intro kv h h0
    simp [Etcd.touch, Env.step_nil, h, h0]
  · intro kv h h0
    simp [Etcd.touch, Env.step_nil, h, h0]

/-- Witness for Claim C10 at a store holding `a` with no lease and `b`
bound to lease `3`, probing the missing key `c`. -/
theorem touch_semantics_witness :
    Etcd.touch ("c") ⟨[⟨("a"), ("x"), 0⟩, ⟨("b"), ("y"), 3⟩], [⟨3, 5, 5⟩], 4⟩ ⟨[]⟩
        = ⟨.ok (), ⟨[⟨("a"), ("x"), 0⟩, ⟨("b"), ("y"), 3⟩], [⟨3, 5, 5⟩], 4⟩, ⟨[]⟩,
           [Rpc.get ("c")]⟩
    ∧ Etcd.touch ("a") ⟨[⟨("a"), ("x"), 0⟩, ⟨("b"), ("y"), 3⟩], [⟨3, 5, 5⟩], 4⟩ ⟨[]⟩
        = ⟨.ok (), ⟨[⟨("a"), ("x"), 0⟩, ⟨("b"), ("y"), 3⟩], [⟨3, 5, 5⟩], 4⟩, ⟨[]⟩,
           [Rpc.get ("a")]⟩
    ∧ (Etcd.touch ("b") ⟨[⟨("a"), ("x"), 0⟩, ⟨("b"), ("y"), 3⟩], [⟨3, 5, 5⟩], 4⟩ ⟨[]⟩).trace
        = [Rpc.get ("b"), Rpc.keepAlive 3] :=
  ⟨((touch_semantics ("c") ⟨[⟨("a"), ("x"), 0⟩, ⟨("b"), ("y"), 3⟩], [⟨3, 5, 5⟩], 4⟩).1
      (by decide)).1,
   (touch_semantics ("a") ⟨[⟨("a"), ("x"), 0⟩, ⟨("b"), ("y"), 3⟩], [⟨3, 5, 5⟩], 4⟩).2.1
     ⟨("a"), ("x"), 0⟩ (by decide) rfl,
   ((touch_semantics ("b") ⟨[⟨("a"), ("x"), 0⟩, ⟨("b"), ("y"), 3⟩], [⟨3, 5, 5⟩], 4⟩).2.2
     ⟨("b"), ("y"), 3⟩ (by decide) (by norm_num)).1⟩
